import Mathlib

/- Verification development for the survivors game core.

   The Python sources (constants.py, game.py, game_actors.py,
   attack_old.py, attack.py, weapons.py, collectables.py, survivors.py)
   are shallowly embedded below.  Floating point times and coordinates
   are modelled as rationals, Python ints as integers, and Python object
   identity (where list removal or the guard collectable != self depends
   on it) as an integer id field.  Removal-during-iteration loops are
   modelled with the exact index semantics of the CPython for statement
   over a list. -/

-- constants.py line 19
def HURT_DURATION : ℤ := 2

-- constants.py line 20 (used by Charger.collision as a time span)
def HURT_COOLDOWN : ℚ := 10

-- constants.py line 27
def ATTACK_DELAY : ℚ := 1/5

-- constants.py line 43
def HEAL_VALUE : ℤ := 20

-- constants.py line 23: note that SPAWN_RATE is a tuple, not an int
def SPAWN_RATE : List ℤ := [20, 20, 15, 15, 10, 10, 5, 5]

/- Python value and equality semantics needed for game.py line 128,
   which compares the int field self.timer with the tuple SPAWN_RATE.
   In Python, int.__eq__(tuple) and tuple.__eq__(int) both return
   NotImplemented, so the == test evaluates to False. -/
inductive PyVal where
  | int (n : ℤ)
  | tuple (xs : List ℤ)

def pyEq : PyVal → PyVal → Bool
  | .int a, .int b => a == b
  | .tuple a, .tuple b => a == b
  | _, _ => false

/- Axis aligned rectangles, standing for the pygame rects of Actor
   objects; colliderect is true exactly when the overlap area is
   positive (touching edges do not collide). -/
structure Rect where
  left : ℚ
  top : ℚ
  width : ℚ
  height : ℚ
deriving DecidableEq

def rectsCollide (a b : Rect) : Bool :=
  decide (a.left < b.left + b.width) && decide (b.left < a.left + a.width) &&
    decide (a.top < b.top + b.height) && decide (b.top < a.top + a.height)

namespace GameActors

-- game_actors.py: Player (Base_Actor with max_health)
structure Player where
  x_pos : ℚ
  y_pos : ℚ
  width : ℚ
  height : ℚ
  dx : ℚ
  dy : ℚ
  speed : ℤ
  health : ℤ
  max_health : ℤ
  img_hurt_frame : ℤ
  alive : Bool
  damage_death : Bool
deriving DecidableEq

-- game_actors.py: Monster (Base_Actor plus damage, xp_value; the
-- cooldown_start field is the one added by the Charger subclass)
structure Monster where
  x_pos : ℚ
  y_pos : ℚ
  width : ℚ
  height : ℚ
  dx : ℚ
  dy : ℚ
  speed : ℤ
  health : ℤ
  damage : ℤ
  xp_value : ℤ
  img_hurt_frame : ℤ
  alive : Bool
  damage_death : Bool
  cooldown_start : ℚ
deriving DecidableEq

def playerRect (p : Player) : Rect := ⟨p.x_pos, p.y_pos, p.width, p.height⟩

def monsterRect (m : Monster) : Rect := ⟨m.x_pos, m.y_pos, m.width, m.height⟩

-- Base_Actor.hurt (game_actors.py lines 117-131), player instance
def hurt (p : Player) (damage : ℤ) : Player :=
  let h := p.health - damage
  { p with health := h, img_hurt_frame := HURT_DURATION,
           damage_death := if h ≤ 0 then true else p.damage_death,
           alive := if h ≤ 0 then false else p.alive }

-- Base_Actor.hurt, monster instance
def hurtMonster (m : Monster) (damage : ℤ) : Monster :=
  let h := m.health - damage
  { m with health := h, img_hurt_frame := HURT_DURATION,
           damage_death := if h ≤ 0 then true else m.damage_death,
           alive := if h ≤ 0 then false else m.alive }

-- Monster.collision (game_actors.py lines 363-379): on rectangle
-- overlap the player is hurt and True is returned
def monsterCollision (m : Monster) (p : Player) (_now : ℚ) :
    Bool × Monster × Player :=
  if rectsCollide (monsterRect m) (playerRect p) = true then (true, m, hurt p m.damage)
  else (false, m, p)

-- Charger.collision (game_actors.py lines 436-456): hurts the player
-- when off cooldown, manages cooldown_start, and always returns False
def chargerCollision (c : Monster) (p : Player) (now : ℚ) :
    Bool × Monster × Player :=
  if rectsCollide (monsterRect c) (playerRect p) = true ∧ c.cooldown_start = -1 then
    (false, { c with cooldown_start := now }, hurt p c.damage)
  else if now - c.cooldown_start ≥ HURT_COOLDOWN then
    (false, { c with cooldown_start := -1 }, p)
  else (false, c, p)

-- Base_Actor.move (game_actors.py lines 137-150): speed sub-steps; a
-- True return of the collision hook sets alive to False, and then the
-- loop body continues with the position increment and the remaining
-- sub-steps: the Python source contains no break statement
def moveLoop (hook : Monster → Player → ℚ → Bool × Monster × Player) :
    ℕ → Monster → Player → ℚ → Monster × Player
  | 0, m, p, _ => (m, p)
  | n + 1, m, p, now =>
    let r := hook m p now
    let m1 := if r.1 then { r.2.1 with alive := false } else r.2.1
    moveLoop hook n
      { m1 with x_pos := m1.x_pos + m1.dx, y_pos := m1.y_pos + m1.dy } r.2.2 now

def monsterMove (m : Monster) (p : Player) (now : ℚ) : Monster × Player :=
  moveLoop monsterCollision m.speed.toNat m p now

def chargerMove (c : Monster) (p : Player) (now : ℚ) : Monster × Player :=
  moveLoop chargerCollision c.speed.toNat c p now

end GameActors

namespace AttackOld

-- attack_old.py: Weapon, the attack entity with an exists flag
-- (version 0.2); the speed field is the one added by the Projectile
-- subclass.  The source attribute exists is spelled exists_ because
-- exists is reserved in Lean.
structure Weapon where
  x_pos : ℚ
  y_pos : ℚ
  width : ℚ
  height : ℚ
  damage : ℤ
  duration : ℚ
  dx : ℚ
  dy : ℚ
  pierce : ℤ
  spawn_time : ℚ
  exists_ : Bool
  speed : ℤ
deriving DecidableEq

def weaponRect (w : Weapon) : Rect := ⟨w.x_pos, w.y_pos, w.width, w.height⟩

-- Actor.collidelist: index of the first mob whose rect overlaps, None
-- when there is none
def collidelist (w : Weapon) (mob_list : List GameActors.Monster) : Option ℕ :=
  mob_list.findIdx? (fun m => rectsCollide (weaponRect w) (GameActors.monsterRect m))

-- Weapon.collision (attack_old.py lines 91-107): hurt the first
-- colliding mob; if pierce is not the infinite sentinel -1, decrement
-- it and set exists to False when it reaches exactly 0
def collision (w : Weapon) (mob_list : List GameActors.Monster) :
    Weapon × List GameActors.Monster :=
  match collidelist w mob_list with
  | none => (w, mob_list)
  | some i =>
    let mobs1 := mob_list.modify (fun m => GameActors.hurtMonster m w.damage) i
    if w.pierce ≠ -1 then
      ({ w with pierce := w.pierce - 1,
                exists_ := if w.pierce - 1 = 0 then false else w.exists_ }, mobs1)
    else (w, mobs1)

-- Weapon.move (attack_old.py lines 135-147): speed increments, each
-- one followed by a collision call against the threaded mob list
def move (dx dy : ℚ) :
    ℕ → Weapon → List GameActors.Monster → Weapon × List GameActors.Monster
  | 0, w, mobs => (w, mobs)
  | n + 1, w, mobs =>
    let w1 := { w with x_pos := w.x_pos + dx, y_pos := w.y_pos + dy }
    let r := collision w1 mobs
    move dx dy n r.1 r.2

-- Weapon.check_duration (attack_old.py lines 109-115)
def check_duration (w : Weapon) (now : ℚ) : Weapon :=
  if now - w.spawn_time ≥ w.duration then { w with exists_ := false } else w

-- a trace of successive collision calls, one per mob-list environment;
-- this is the sequence of collision resolutions the claim quantifies
-- over (collision does not change the weapon rect, so the hit tests
-- are independent of the weapon state threading)
def runColl (w : Weapon) (envs : List (List GameActors.Monster)) : Weapon :=
  envs.foldl (fun w mobs => (collision w mobs).1) w

def wasHit (w : Weapon) (mobs : List GameActors.Monster) : Bool :=
  (collidelist w mobs).isSome

def hitCount (w : Weapon) (envs : List (List GameActors.Monster)) : ℕ :=
  (envs.filter (fun mobs => wasHit w mobs)).length

end AttackOld

namespace Weapons

-- weapons.py: one row of the progression table (the description column
-- is display-only and omitted)
structure StatRow where
  speed : ℤ
  damage : ℤ
  duration : ℚ
  pierce : ℤ
  quantity : ℤ
  frequency : ℚ
deriving DecidableEq

-- weapons.py: Weapon; the attacks list is swept by the loop modelled
-- separately as the generic removal sweep
structure Weapon where
  progression : List StatRow
  level : ℕ
  level_cap : ℤ
  max_level : Bool
  starting_time : ℚ
  delay : ℚ
  attack_interval : List ℚ
  attack_interval_index : ℕ
  speed : ℤ
  damage : ℤ
  duration : ℚ
  pierce : ℤ
  quantity : ℤ
  frequency : ℚ
deriving DecidableEq

def defaultRow : StatRow := ⟨0, 0, 0, 0, 0, 0⟩

-- Python round(x, 3): round half to even at the third decimal place
def pyRound3 (x : ℚ) : ℚ :=
  let q := 1000 * x
  let n : ℤ := ⌊q⌋
  let frac := q - (n : ℚ)
  let r : ℤ :=
    if frac < 1/2 then n
    else if 1/2 < frac then n + 1
    else if n % 2 = 0 then n else n + 1
  (r : ℚ) / 1000

-- Weapon.set_weapon_stats (weapons.py lines 113-129): reads the row of
-- the current level and appends quantity copies of delay plus the
-- trailing rest entry to attack_interval; the source never clears the
-- previous contents of the list
def set_weapon_stats (w : Weapon) : Weapon :=
  let row := w.progression.getD w.level defaultRow
  { w with
    speed := row.speed, damage := row.damage, duration := row.duration,
    pierce := row.pierce, quantity := row.quantity, frequency := row.frequency,
    attack_interval :=
      w.attack_interval ++ List.replicate row.quantity.toNat w.delay
        ++ [pyRound3 (row.frequency - w.delay * (row.quantity : ℚ))] }

-- Weapon.__init__ (weapons.py lines 66-89)
def mkWeapon (progression : List StatRow) (starting_level : ℕ) (now : ℚ) : Weapon :=
  set_weapon_stats
    { progression := progression, level := starting_level,
      level_cap := (progression.length : ℤ) - 1, max_level := false,
      starting_time := now, delay := ATTACK_DELAY, attack_interval := [],
      attack_interval_index := 0, speed := 0, damage := 0, duration := 0,
      pierce := 0, quantity := 0, frequency := 0 }

-- Weapon.set_weapon_level (weapons.py lines 138-150)
def set_weapon_level (w : Weapon) (new_level : ℤ) : Weapon :=
  if 0 ≤ new_level ∧ new_level ≤ w.level_cap then
    set_weapon_stats
      { w with level := new_level.toNat,
               max_level := if new_level = w.level_cap then true else w.max_level }
  else w

-- Weapon.level_up_weapon (weapons.py lines 131-136)
def level_up_weapon (w : Weapon) : Weapon := set_weapon_level w ((w.level : ℤ) + 1)

-- cadence portion of Weapon.update (weapons.py lines 180-188): when the
-- gating interval entry has elapsed, advance the cursor and restart the
-- segment clock; a mid-sequence advance spawns one attack, running past
-- the end wraps the cursor to 0 without spawning
def cadenceStep (w : Weapon) (now : ℚ) : Weapon × Bool :=
  if now - w.starting_time ≥ w.attack_interval.getD w.attack_interval_index 0 then
    if w.attack_interval_index + 1 < w.attack_interval.length then
      ({ w with starting_time := now,
                attack_interval_index := w.attack_interval_index + 1 }, true)
    else
      ({ w with starting_time := now, attack_interval_index := 0 }, false)
  else (w, false)

-- a sequence of update ticks at the given times, counting the spawned
-- attacks
def runCadence (w : Weapon) (ts : List ℚ) : Weapon × ℕ :=
  ts.foldl (fun s t =>
    let r := cadenceStep s.1 t
    (r.1, s.2 + if r.2 then 1 else 0)) (w, 0)

-- progression rows for the concrete scenarios: quantity 1 and
-- quantity 3, both with frequency 1.0
def rowQ1 : StatRow := ⟨10, 5, 1, 1, 1, 1⟩

def rowQ3 : StatRow := ⟨10, 5, 1, 1, 3, 1⟩

def progQ3 : List StatRow := [rowQ3]

def progTwo : List StatRow := [rowQ1, rowQ3]

end Weapons

namespace Collectables

inductive Kind where
  | xp
  | cake
deriving DecidableEq

-- collectables.py: Base_Collectable with the XP value field (for cakes
-- the value field holds heal_value, set to HEAL_VALUE on construction);
-- tier stands for the xp image selected by value thresholds; id models
-- Python object identity
structure Collectable where
  id : ℕ
  kind : Kind
  x_pos : ℚ
  y_pos : ℚ
  width : ℚ
  height : ℚ
  visible : Bool
  exists_ : Bool
  active : Bool
  value : ℤ
  tier : ℕ
deriving DecidableEq

-- the parts of the Game object read and written by collectable updates
structure GameRef where
  xp : ℤ
  player : GameActors.Player
deriving DecidableEq

def cRect (c : Collectable) : Rect := ⟨c.x_pos, c.y_pos, c.width, c.height⟩

-- Base_Collectable.collide_player (collectables.py lines 58-69)
def collide_player (c : Collectable) (p : GameActors.Player) : Collectable :=
  if c.visible = true ∧ rectsCollide (cRect c) (GameActors.playerRect p) = true then
    { c with visible := false, active := true }
  else c

-- active_effect: XP (collectables.py lines 156-166) adds value to the
-- xp counter, Cake (lines 232-245) heals the player and clamps at
-- max_health; both then run the Base effect exists = False.  Note that
-- neither clears the active flag.
def active_effect (c : Collectable) (g : GameRef) : Collectable × GameRef :=
  match c.kind with
  | .xp => ({ c with exists_ := false }, { g with xp := g.xp + c.value })
  | .cake =>
    let h := g.player.health + c.value
    let h2 := if h > g.player.max_health then g.player.max_health else h
    ({ c with exists_ := false }, { g with player := { g.player with health := h2 } })

-- Base_Collectable.update (collectables.py lines 81-93)
def update (c : Collectable) (g : GameRef) : Collectable × GameRef :=
  let c1 := collide_player c g.player
  if c1.active = true then active_effect c1 g else (c1, g)

def dist2 (c : Collectable) (sx sy : ℚ) : ℚ :=
  (c.x_pos - sx) * (c.x_pos - sx) + (c.y_pos - sy) * (c.y_pos - sy)

-- hypot(cx - sx, cy - sy) <= d, phrased without square roots: for the
-- nonnegative hypotenuse this is equivalent to 0 <= d together with
-- the squared comparison
def withinDist (c : Collectable) (sx sy d : ℚ) : Prop :=
  0 ≤ d ∧ dist2 c sx sy ≤ d * d

instance (c : Collectable) (sx sy d : ℚ) : Decidable (withinDist c sx sy d) :=
  inferInstanceAs (Decidable (0 ≤ d ∧ dist2 c sx sy ≤ d * d))

-- image tier thresholds used inside XP.condense (lines 190-197)
def tierOf (v : ℤ) : ℕ := if v < 5 then 1 else if v < 20 then 2 else 3

-- XP.condense (collectables.py lines 168-197): scan the pool; absorb
-- every other still existing XP item within search_distance, adding its
-- value to self and marking it non existent
def condense (search_distance : ℚ) :
    Collectable → List Collectable → Collectable × List Collectable
  | self, [] => (self, [])
  | self, c :: rest =>
    if c.kind = Kind.xp ∧ c.exists_ = true ∧ c.id ≠ self.id then
      if withinDist c self.x_pos self.y_pos search_distance then
        let v := self.value + c.value
        let r := condense search_distance { self with value := v, tier := tierOf v } rest
        (r.1, { c with exists_ := false } :: r.2)
      else
        let r := condense search_distance self rest
        (r.1, c :: r.2)
    else
      let r := condense search_distance self rest
      (r.1, c :: r.2)

-- the absorption condition of one pool entry, relative to the id and
-- position of the condensing item
def absorbP (sid : ℕ) (sx sy d : ℚ) (c : Collectable) : Prop :=
  (c.kind = Kind.xp ∧ c.exists_ = true ∧ c.id ≠ sid) ∧ withinDist c sx sy d

instance (sid : ℕ) (sx sy d : ℚ) (c : Collectable) : Decidable (absorbP sid sx sy d c) :=
  inferInstanceAs (Decidable (_ ∧ _))

def absorbSum (sid : ℕ) (sx sy d : ℚ) (pool : List Collectable) : ℤ :=
  ((pool.filter (fun c => decide (absorbP sid sx sy d c))).map (fun c => c.value)).sum

def absorbMark (sid : ℕ) (sx sy d : ℚ) (c : Collectable) : Collectable :=
  if absorbP sid sx sy d c then { c with exists_ := false } else c

-- collectable sweep of Game.update (game.py lines 154-157), with the
-- CPython semantics of removing from the list being iterated: the for
-- statement advances an internal index, list.remove(x) deletes the
-- first entry equal to x and shifts the rest down, and the update call
-- of the body runs on the current element even when it was just
-- removed.  The fuel argument starts at the initial list length, which
-- bounds the number of loop iterations.
def sweepGo : ℕ → GameRef → List Collectable → ℕ → GameRef × List Collectable
  | 0, g, l, _ => (g, l)
  | fuel + 1, g, l, i =>
    if h : i < l.length then
      let c := l.get ⟨i, h⟩
      if c.exists_ = false then
        let l1 := l.erase c
        let r := update c g
        sweepGo fuel r.2 l1 (i + 1)
      else
        let r := update c g
        sweepGo fuel r.2 (l.set i r.1) (i + 1)
    else (g, l)

def collectablesSweep (g : GameRef) (l : List Collectable) : GameRef × List Collectable :=
  sweepGo l.length g l 0

end Collectables

namespace Game

-- one row of the external mobs table, as typed by survivors.py
structure MobRow where
  speed : ℤ
  health : ℤ
  damage : ℤ
  xp_value : ℤ
  spawn_time : List ℤ
deriving DecidableEq

-- monster spawn portion of Game.update (game.py lines 127-138): the
-- timer increments, then the int timer is compared with the tuple
-- SPAWN_RATE using Python ==; on equality the timer resets and one
-- monster is appended per row whose spawn_time bucket contains the
-- current minute.  The returned list holds the rows a monster is
-- constructed from.
def spawnStep (timer : ℤ) (current_minute : ℤ) (mobs : List MobRow) :
    ℤ × List MobRow :=
  let t := timer + 1
  if pyEq (.int t) (.tuple SPAWN_RATE) then
    (0, mobs.filter (fun row => row.spawn_time.contains current_minute))
  else (t, [])

-- the remove-while-iterating loop shape shared by game.py lines
-- 139-146 (monsters), lines 154-157 (collectables) and weapons.py lines
-- 190-193 (attacks), with CPython index semantics as in sweepGo; the
-- second component records the elements whose update method runs, in
-- invocation order (what update does to each element is irrelevant to
-- the iteration behaviour)
def pySweepGo [DecidableEq α] (flagged : α → Bool) :
    ℕ → List α → ℕ → List α × List α
  | 0, l, _ => (l, [])
  | fuel + 1, l, i =>
    if h : i < l.length then
      let x := l.get ⟨i, h⟩
      let l1 := if flagged x then l.erase x else l
      let r := pySweepGo flagged fuel l1 (i + 1)
      (r.1, x :: r.2)
    else (l, [])

def pySweep [DecidableEq α] (flagged : α → Bool) (l : List α) : List α × List α :=
  pySweepGo flagged l.length l 0

-- instantiation at the attack sweep of Weapon.update (weapons.py lines
-- 190-193): entries whose exists flag is false are removed
def attacksSweep (l : List AttackOld.Weapon) :
    List AttackOld.Weapon × List AttackOld.Weapon :=
  pySweep (fun a => !a.exists_) l

end Game

namespace Survivors

inductive State where
  | menu
  | play
  | game_over
  | pause
  | level_up
deriving DecidableEq

-- the parts of the survivors.py module state driven by the pause logic;
-- weapon stands for an element of game.weapons, whose timestamps the
-- pause handling never touches
structure Sys where
  state : State
  game_start_time : ℚ
  time_paused : ℚ
  weapon : Weapons.Weapon
deriving DecidableEq

-- PLAY to PAUSE on escape (survivors.py lines 100-103)
def pauseEnter (s : Sys) (now : ℚ) : Sys :=
  { s with time_paused := now, state := State.pause }

-- PAUSE to PLAY on space (survivors.py lines 115-119): the start time
-- origin is advanced by the paused wall time
def pauseResume (s : Sys) (now : ℚ) : Sys :=
  if s.state = State.pause then
    { s with game_start_time := s.game_start_time + (now - s.time_paused),
             state := State.play }
  else s

-- game.py line 122
def currentTime (game_start_time now : ℚ) : ℚ := now - game_start_time

-- heal branch of the LEVEL_UP handler (survivors.py lines 130-133)
def levelUpHeal (p : GameActors.Player) : GameActors.Player :=
  let h := p.health + HEAL_VALUE / 2
  { p with health := if h > p.max_health then p.max_health else h }

end Survivors

-- concrete states used by the scenario theorems

def cPlayer : GameActors.Player :=
  ⟨0, 0, 100, 100, 0, 0, 0, 200, 200, 0, true, false⟩

-- a monster with speed 2 that overlaps the player on every sub-step
def cMonster : GameActors.Monster :=
  ⟨10, 10, 5, 5, 1, 0, 2, 50, 3, 1, 0, true, false, -1⟩

-- a mob whose rect covers the attack scenarios below on every sub-step
def bigMob : GameActors.Monster :=
  ⟨-50, -50, 200, 200, 0, 0, 0, 50, 0, 1, 0, true, false, -1⟩

-- an attack with pierce 2 sitting inside bigMob
def cAtk : AttackOld.Weapon := ⟨0, 0, 10, 10, 1, 100, 0, 0, 2, 0, true, 2⟩

-- an attack with the infinite pierce sentinel -1
def cAtkInf : AttackOld.Weapon := ⟨0, 0, 10, 10, 1, 100, 0, 0, -1, 0, true, 2⟩

-- attack entries for the sweep scenario: one flagged for removal, one
-- alive
def aDead : AttackOld.Weapon := ⟨0, 0, 1, 1, 0, 1, 0, 0, 1, 0, false, 1⟩

def aLive : AttackOld.Weapon := ⟨3, 3, 1, 1, 0, 1, 0, 0, 1, 0, true, 1⟩

-- an xp collectable of value 5 overlapping cPlayer
def cXP : Collectables.Collectable :=
  ⟨1, Collectables.Kind.xp, 10, 10, 4, 4, true, true, false, 5, 1⟩

-- a second xp collectable of value 3 near cXP
def cXPB : Collectables.Collectable :=
  ⟨2, Collectables.Kind.xp, 12, 10, 4, 4, true, true, false, 3, 1⟩

def cGame0 : Collectables.GameRef := ⟨0, cPlayer⟩

-- a weapon whose current cadence segment started at wall time 9.9
def pauseWeapon : Weapons.Weapon := Weapons.mkWeapon Weapons.progQ3 0 (99/10)

def pauseSys : Survivors.Sys := ⟨Survivors.State.play, 0, 0, pauseWeapon⟩

-- a cake collectable and a player at 195 of 200 health
def cCake : Collectables.Collectable :=
  ⟨3, Collectables.Kind.cake, 10, 10, 4, 4, true, true, false, HEAL_VALUE, 1⟩

def cPlayer195 : GameActors.Player :=
  ⟨0, 0, 100, 100, 0, 0, 0, 195, 200, 0, true, false⟩

def cGame195 : Collectables.GameRef := ⟨0, cPlayer195⟩

/-- Claim C1: the spec says a monster batch spawns whenever the spawn
tick counter reaches the spawn cadence, with the counter resetting to 0,
and that on every other tick the counter just increments.  In the code
the counter (an int) is compared with the whole SPAWN_RATE tuple, and a
Python int never equals a tuple, so the spawn branch is unreachable: on
every tick, for every minute and every mobs table, the counter
increments and no monster is appended. -/
theorem c1_spawn_never_fires (timer current_minute : ℤ) (mobs : List Game.MobRow) :
    Game.spawnStep timer current_minute mobs = (timer + 1, []) := rfl

/-- Claim C4: the sweeps over monsters, collectables and attacks remove
entries from the list being iterated with list.remove inside a forward
for loop.  Removing the entry at the current index shifts the next
entry down onto that index, and the loop then skips it.  Concretely,
sweeping the attack list with a removed entry first: the surviving
attack aLive stays in the collection but is never processed that tick,
while the removed entry aDead is still processed after its removal. -/
theorem c4_sweep_skips_survivor :
    Game.attacksSweep [aDead, aLive] = ([aLive], [aDead]) := by decide

/-- Claim C5: set_weapon_stats appends quantity copies of delay plus the
trailing rest entry to attack_interval without clearing the previous
contents.  At construction the invariant length = quantity + 1 holds
(row quantity 1 gives length 2), but after set_weapon_level to the
quantity 3 row the list has length 2 + 4 = 6, not quantity + 1 = 4. -/
theorem c5_interval_accumulates :
    (Weapons.mkWeapon Weapons.progTwo 0 0).attack_interval.length = 2
    ∧ (Weapons.set_weapon_level (Weapons.mkWeapon Weapons.progTwo 0 0) 1).attack_interval.length = 6
    ∧ (Weapons.set_weapon_level (Weapons.mkWeapon Weapons.progTwo 0 0) 1).quantity = 3 := by
  decide

/-- Claim C9 (amended): leaving PLAY at wall time t1 and resuming at t2
advances the start time origin by exactly t2 - t1, so the counters
derived from game_start_time (current_time, current_minute, the spawn
buckets) continue as if no game time passed; the weapon cadence and
attack duration timestamps are their own raw wall clock values and are
left untouched by the resume, so they observe the paused wall time as
elapsed time. -/
theorem c9_origin_shift (s : Survivors.Sys) (t1 t2 t : ℚ) :
    (Survivors.pauseResume (Survivors.pauseEnter s t1) t2).game_start_time
        = s.game_start_time + (t2 - t1)
    ∧ Survivors.currentTime
        (Survivors.pauseResume (Survivors.pauseEnter s t1) t2).game_start_time t
        = Survivors.currentTime s.game_start_time t1 + (t - t2)
    ∧ (Survivors.pauseResume (Survivors.pauseEnter s t1) t2).weapon = s.weapon := by
  refine ⟨?_, ?_, ?_⟩ <;>
    simp [Survivors.pauseEnter, Survivors.pauseResume, Survivors.currentTime] <;>
    ring

/-- Claim C9 counterexample: the claim asserts that after a pause from
t1 = 10 to t2 = 15 every elapsed-time driven counter, including the
weapon cadence, behaves as if no game time passed.  With a weapon whose
cadence segment started at 9.9 (so only 0.1 of the 0.2 gate had elapsed
at the pause), the resume leaves the weapon untouched and the very next
cadence step at t2 = 15 fires, because the weapon clock saw the five
paused seconds.  Under the claim it must not fire, since the game time
elapsed in the segment is 0.1 < 0.2. -/
theorem c9_pause_counterexample :
    (Survivors.pauseResume (Survivors.pauseEnter pauseSys 10) 15).game_start_time = 5
    ∧ (Survivors.pauseResume (Survivors.pauseEnter pauseSys 10) 15).weapon = pauseSys.weapon
    ∧ (Weapons.cadenceStep
        (Survivors.pauseResume (Survivors.pauseEnter pauseSys 10) 15).weapon 15).2 = true
    ∧ (10 : ℚ) - pauseSys.weapon.starting_time < ATTACK_DELAY := by
  refine ⟨?_, ?_, ?_, ?_⟩ <;>
    norm_num [Survivors.pauseEnter, Survivors.pauseResume, pauseSys, pauseWeapon,
      Weapons.cadenceStep, Weapons.mkWeapon, Weapons.set_weapon_stats, Weapons.progQ3,
      Weapons.rowQ3, Weapons.defaultRow, Weapons.pyRound3, ATTACK_DELAY,
      List.replicate]

/-- Claim C10: applying the Cake activation effect (health plus
heal_value, then clamp at max_health) or the level-up no-choice heal
(health plus HEAL_VALUE integer-divided by 2, then clamp) to a player
with health at most max_health yields exactly the clamped sum: the
result is min of the unclamped sum and max_health, hence at most
max_health, and equal to max_health whenever the unclamped sum would
exceed it. -/
theorem c10_heal_clamped (g : Collectables.GameRef) (c : Collectables.Collectable)
    (hkind : c.kind = Collectables.Kind.cake) (hval : c.value = HEAL_VALUE)
    (hh : g.player.health ≤ g.player.max_health) :
    ((Collectables.active_effect c g).2.player.health
        = min (g.player.health + HEAL_VALUE) g.player.max_health
      ∧ (Collectables.active_effect c g).2.player.health ≤ g.player.max_health)
    ∧ ((Survivors.levelUpHeal g.player).health
        = min (g.player.health + HEAL_VALUE / 2) g.player.max_health
      ∧ (Survivors.levelUpHeal g.player).health ≤ g.player.max_health) := by
  obtain ⟨cid, ckind, cx, cy, cw, ch, cvis, cex, cact, cval, ctier⟩ := c
  simp only at hkind hval
  subst hkind
  subst hval
  simp only [Collectables.active_effect, Survivors.levelUpHeal]
  refine ⟨⟨?_, ?_⟩, ?_, ?_⟩ <;> split_ifs <;> omega

/-- Witness for claim C10 at a concrete player with health 195 of 200:
both heals exceed the cap and clamp to 200. -/
theorem c10_witness :
    ((Collectables.active_effect cCake cGame195).2.player.health
        = min (cGame195.player.health + HEAL_VALUE) cGame195.player.max_health
      ∧ (Collectables.active_effect cCake cGame195).2.player.health
        ≤ cGame195.player.max_health)
    ∧ ((Survivors.levelUpHeal cGame195.player).health
        = min (cGame195.player.health + HEAL_VALUE / 2) cGame195.player.max_health
      ∧ (Survivors.levelUpHeal cGame195.player).health
        ≤ cGame195.player.max_health) :=
  c10_heal_clamped cGame195 cCake rfl rfl (by decide)

/-- Claim C3: the one-shot visibility part of the claim holds (nothing
ever sets visible back to true), but the activation effect is not
applied exactly once.  The active flag is never cleared, and the sweep
of game.py lines 154-157 still calls update on an entry it has just
removed, so the effect runs a second time on the removal tick.  For a
value 5 xp collectable picked up on the first tick, after the second
tick the xp counter holds 10, not 5, and the entry is gone. -/
theorem c3_effect_applied_twice :
    (Collectables.collectablesSweep
        (Collectables.collectablesSweep cGame0 [cXP]).1
        (Collectables.collectablesSweep cGame0 [cXP]).2).1.xp = 10
    ∧ (Collectables.collectablesSweep
        (Collectables.collectablesSweep cGame0 [cXP]).1
        (Collectables.collectablesSweep cGame0 [cXP]).2).2 = []
    ∧ (Collectables.collectablesSweep
        (Collectables.collectablesSweep cGame0 [cXP]).1
        (Collectables.collectablesSweep cGame0 [cXP]).2).1.xp ≠ 5 := by
  have h1 : Collectables.collectablesSweep cGame0 [cXP]
      = (⟨5, cPlayer⟩, [⟨1, Collectables.Kind.xp, 10, 10, 4, 4, false, false, true, 5, 1⟩]) := by
    norm_num [Collectables.collectablesSweep, Collectables.sweepGo, Collectables.update,
      Collectables.collide_player, Collectables.active_effect, Collectables.cRect,
      GameActors.playerRect, rectsCollide, cGame0, cXP, cPlayer]
  have h2 : Collectables.collectablesSweep (⟨5, cPlayer⟩ : Collectables.GameRef)
      [⟨1, Collectables.Kind.xp, 10, 10, 4, 4, false, false, true, 5, 1⟩]
      = (⟨10, cPlayer⟩, []) := by
    norm_num [Collectables.collectablesSweep, Collectables.sweepGo, Collectables.update,
      Collectables.collide_player, Collectables.active_effect, Collectables.cRect,
      GameActors.playerRect, rectsCollide, cPlayer]
  rw [h1]
  rw [h2]
  refine ⟨rfl, rfl, by decide⟩

theorem cadence_cycle4 (w : Weapons.Weapon) (a b c d s t1 t2 t3 t4 : ℚ)
    (hAI : w.attack_interval = [a, b, c, d])
    (hidx : w.attack_interval_index = 0)
    (hst : w.starting_time = s)
    (h1 : t1 - s ≥ a) (h2 : t2 - t1 ≥ b) (h3 : t3 - t2 ≥ c) (h4 : t4 - t3 ≥ d) :
    (Weapons.runCadence w [t1, t2, t3, t4]).2 = 3
    ∧ (Weapons.runCadence w [t1, t2, t3, t4]).1.attack_interval_index = 0 := by
  have e1 : Weapons.cadenceStep w t1
      = ({ w with starting_time := t1, attack_interval_index := 1 }, true) := by
    norm_num [Weapons.cadenceStep, hAI, hidx, hst, h1]
  have e2 : Weapons.cadenceStep { w with starting_time := t1, attack_interval_index := 1 } t2
      = ({ w with starting_time := t2, attack_interval_index := 2 }, true) := by
    norm_num [Weapons.cadenceStep, hAI, h2]
  have e3 : Weapons.cadenceStep { w with starting_time := t2, attack_interval_index := 2 } t3
      = ({ w with starting_time := t3, attack_interval_index := 3 }, true) := by
    norm_num [Weapons.cadenceStep, hAI, h3]
  have e4 : Weapons.cadenceStep { w with starting_time := t3, attack_interval_index := 3 } t4
      = ({ w with starting_time := t4, attack_interval_index := 0 }, false) := by
    norm_num [Weapons.cadenceStep, hAI, h4]
  simp only [Weapons.runCadence, List.foldl, e1, e2, e3, e4]
  norm_num

/-- Claim C6: a freshly constructed weapon on the quantity 3,
frequency 1.0 row with delay 0.2 has the interval sequence
[0.2, 0.2, 0.2, 0.4]; over one full firing cycle, with each tick
arriving after its gating interval entry has elapsed, exactly 3 attacks
are spawned and the interval cursor returns to 0; ticks arriving before
the gating entry has elapsed change nothing and spawn nothing. -/
theorem c6_cadence_cycle (s t1 t2 t3 t4 : ℚ)
    (h1 : t1 - s ≥ 1/5) (h2 : t2 - t1 ≥ 1/5) (h3 : t3 - t2 ≥ 1/5) (h4 : t4 - t3 ≥ 2/5) :
    (Weapons.mkWeapon Weapons.progQ3 0 s).attack_interval = [1/5, 1/5, 1/5, 2/5]
    ∧ (Weapons.runCadence (Weapons.mkWeapon Weapons.progQ3 0 s) [t1, t2, t3, t4]).2 = 3
    ∧ (Weapons.runCadence (Weapons.mkWeapon Weapons.progQ3 0 s)
        [t1, t2, t3, t4]).1.attack_interval_index = 0
    ∧ (∀ (w : Weapons.Weapon) (t : ℚ),
        t - w.starting_time < w.attack_interval.getD w.attack_interval_index 0 →
        Weapons.cadenceStep w t = (w, false)) := by
  have hAI : (Weapons.mkWeapon Weapons.progQ3 0 s).attack_interval
      = [1/5, 1/5, 1/5, 2/5] := by
    norm_num [Weapons.mkWeapon, Weapons.set_weapon_stats, Weapons.progQ3, Weapons.rowQ3,
      Weapons.defaultRow, Weapons.pyRound3, ATTACK_DELAY, List.replicate]
  have hidx : (Weapons.mkWeapon Weapons.progQ3 0 s).attack_interval_index = 0 := by
    simp [Weapons.mkWeapon, Weapons.set_weapon_stats]
  have hst : (Weapons.mkWeapon Weapons.progQ3 0 s).starting_time = s := by
    simp [Weapons.mkWeapon, Weapons.set_weapon_stats]
  have hcyc := cadence_cycle4 (Weapons.mkWeapon Weapons.progQ3 0 s)
    (1/5) (1/5) (1/5) (2/5) s t1 t2 t3 t4 hAI hidx hst h1 h2 h3 h4
  refine ⟨hAI, hcyc.1, hcyc.2, ?_⟩
  intro w t hlt
  unfold Weapons.cadenceStep
  rw [if_neg (not_le.mpr hlt)]

/-- Witness for claim C6 at the concrete tick times 0.2, 0.4, 0.6, 1.0
of a weapon constructed at time 0, plus an idle tick at time 0 that
changes nothing. -/
theorem c6_witness :
    ((Weapons.mkWeapon Weapons.progQ3 0 0).attack_interval = [1/5, 1/5, 1/5, 2/5]
      ∧ (Weapons.runCadence (Weapons.mkWeapon Weapons.progQ3 0 0)
          [1/5, 2/5, 3/5, 1]).2 = 3
      ∧ (Weapons.runCadence (Weapons.mkWeapon Weapons.progQ3 0 0)
          [1/5, 2/5, 3/5, 1]).1.attack_interval_index = 0)
    ∧ Weapons.cadenceStep (Weapons.mkWeapon Weapons.progQ3 0 0) 0
        = (Weapons.mkWeapon Weapons.progQ3 0 0, false) := by
  have h := c6_cadence_cycle 0 (1/5) (2/5) (3/5) 1
    (by norm_num) (by norm_num) (by norm_num) (by norm_num)
  refine ⟨⟨h.1, h.2.1, h.2.2.1⟩, h.2.2.2 _ 0 ?_⟩
  norm_num [Weapons.mkWeapon, Weapons.set_weapon_stats, Weapons.progQ3, Weapons.rowQ3,
    Weapons.defaultRow, Weapons.pyRound3, ATTACK_DELAY, List.replicate]

theorem monsterCollision_monster_eq (m : GameActors.Monster) (p : GameActors.Player)
    (now : ℚ) : (GameActors.monsterCollision m p now).2.1 = m := by
  unfold GameActors.monsterCollision
  split <;> rfl

theorem monsterCollision_flag (m : GameActors.Monster) (p : GameActors.Player)
    (now : ℚ) : (GameActors.monsterCollision m p now).1
      = rectsCollide (GameActors.monsterRect m) (GameActors.playerRect p) := by
  unfold GameActors.monsterCollision
  split <;> simp_all

theorem moveLoop_monster_pos (n : ℕ) :
    ∀ (m : GameActors.Monster) (p : GameActors.Player) (now : ℚ),
      (GameActors.moveLoop GameActors.monsterCollision n m p now).1.x_pos
          = m.x_pos + n * m.dx
      ∧ (GameActors.moveLoop GameActors.monsterCollision n m p now).1.y_pos
          = m.y_pos + n * m.dy := by
  induction n with
  | zero => intro m p now; simp [GameActors.moveLoop]
  | succ n ih =>
    intro m p now
    simp only [GameActors.moveLoop]
    rcases hb : GameActors.monsterCollision m p now with ⟨b, m2, p2⟩
    have hm2 : m2 = m := by
      have h := monsterCollision_monster_eq m p now
      rw [hb] at h
      exact h
    subst hm2
    cases b
    · constructor
      · rw [(ih _ p2 now).1]
        push_cast
        try simp
        try ring
      · rw [(ih _ p2 now).2]
        push_cast
        try simp
        try ring
    · constructor
      · rw [(ih _ p2 now).1]
        push_cast
        try simp
        try ring
      · rw [(ih _ p2 now).2]
        push_cast
        try simp
        try ring

theorem chargerCollision_false (c : GameActors.Monster) (p : GameActors.Player)
    (now : ℚ) : (GameActors.chargerCollision c p now).1 = false := by
  unfold GameActors.chargerCollision
  split
  · rfl
  · split <;> rfl

theorem chargerCollision_alive (c : GameActors.Monster) (p : GameActors.Player)
    (now : ℚ) : (GameActors.chargerCollision c p now).2.1.alive = c.alive := by
  unfold GameActors.chargerCollision
  split
  · rfl
  · split <;> rfl

theorem moveLoop_charger_alive (n : ℕ) :
    ∀ (c : GameActors.Monster) (p : GameActors.Player) (now : ℚ),
      (GameActors.moveLoop GameActors.chargerCollision n c p now).1.alive = c.alive := by
  induction n with
  | zero => intro c p now; simp [GameActors.moveLoop]
  | succ n ih =>
    intro c p now
    simp only [GameActors.moveLoop]
    have hflag := chargerCollision_false c p now
    have halive := chargerCollision_alive c p now
    rcases hb : GameActors.chargerCollision c p now with ⟨b, c2, p2⟩
    rw [hb] at hflag halive
    simp only at hflag halive
    subst hflag
    simp only [Bool.false_eq_true, if_false]
    rw [ih _ p2 now]
    simpa using halive

theorem moveLoop_monster_dead (n : ℕ) :
    ∀ (m : GameActors.Monster) (p : GameActors.Player) (now : ℚ),
      m.alive = false →
      (GameActors.moveLoop GameActors.monsterCollision n m p now).1.alive = false := by
  induction n with
  | zero => intro m p now hm; simpa [GameActors.moveLoop] using hm
  | succ n ih =>
    intro m p now hm
    simp only [GameActors.moveLoop]
    rcases hb : GameActors.monsterCollision m p now with ⟨b, m2, p2⟩
    have hm2 : m2 = m := by
      have h := monsterCollision_monster_eq m p now
      rw [hb] at h
      exact h
    subst hm2
    cases b
    · simp only [Bool.false_eq_true, if_false]
      exact ih _ p2 now (by simpa using hm)
    · simp only [if_true]
      exact ih _ p2 now (by simp)

/-- Claim C7 (amended): in Base_Actor.move a true collision return marks
the entity not-alive, but the loop does not stop: every one of the speed
sub-steps still runs its collision check and its position increment, so
the position always advances by speed times (dx, dy); a monster whose
hook fires on the first sub-step still ends the move dead; and the
Charger hook always returns false, so a Charger is never self-despawned
by this mechanism. -/
theorem c7_move_no_break :
    (∀ (m : GameActors.Monster) (p : GameActors.Player) (now : ℚ),
        (GameActors.monsterMove m p now).1.x_pos
            = m.x_pos + (m.speed.toNat : ℚ) * m.dx
        ∧ (GameActors.monsterMove m p now).1.y_pos
            = m.y_pos + (m.speed.toNat : ℚ) * m.dy)
    ∧ (∀ (c : GameActors.Monster) (p : GameActors.Player) (now : ℚ),
        (GameActors.chargerCollision c p now).1 = false)
    ∧ (∀ (c : GameActors.Monster) (p : GameActors.Player) (now : ℚ),
        (GameActors.chargerMove c p now).1.alive = c.alive)
    ∧ (∀ (m : GameActors.Monster) (p : GameActors.Player) (now : ℚ),
        0 < m.speed.toNat →
        rectsCollide (GameActors.monsterRect m) (GameActors.playerRect p) = true →
        (GameActors.monsterMove m p now).1.alive = false) := by
  refine ⟨?_, chargerCollision_false, ?_, ?_⟩
  · intro m p now
    exact moveLoop_monster_pos m.speed.toNat m p now
  · intro c p now
    exact moveLoop_charger_alive c.speed.toNat c p now
  · intro m p now hn hcol
    unfold GameActors.monsterMove
    obtain ⟨k, hk⟩ : ∃ k, m.speed.toNat = k + 1 := ⟨m.speed.toNat - 1, by omega⟩
    rw [hk]
    simp only [GameActors.moveLoop]
    rcases hb : GameActors.monsterCollision m p now with ⟨b, m2, p2⟩
    have hbtrue : b = true := by
      have h := monsterCollision_flag m p now
      rw [hb] at h
      simp only at h
      rw [h, hcol]
    subst hbtrue
    simp only [if_true]
    exact moveLoop_monster_dead k _ p2 now rfl

theorem collision_weaponRect (w : AttackOld.Weapon) (mobs : List GameActors.Monster) :
    AttackOld.weaponRect (AttackOld.collision w mobs).1 = AttackOld.weaponRect w := by
  unfold AttackOld.collision
  cases hc : AttackOld.collidelist w mobs
  · rfl
  · dsimp only
    split <;> rfl

theorem collidelist_collision (w : AttackOld.Weapon) (mobs l : List GameActors.Monster) :
    AttackOld.collidelist (AttackOld.collision w mobs).1 l = AttackOld.collidelist w l := by
  unfold AttackOld.collidelist
  rw [collision_weaponRect]

theorem wasHit_collision (w : AttackOld.Weapon) (mobs l : List GameActors.Monster) :
    AttackOld.wasHit (AttackOld.collision w mobs).1 l = AttackOld.wasHit w l := by
  unfold AttackOld.wasHit
  rw [collidelist_collision]

theorem hitCount_cons (w : AttackOld.Weapon) (e : List GameActors.Monster)
    (envs : List (List GameActors.Monster)) :
    AttackOld.hitCount w (e :: envs)
      = (if AttackOld.wasHit w e then 1 else 0) + AttackOld.hitCount w envs := by
  simp only [AttackOld.hitCount, List.filter_cons]
  by_cases h : AttackOld.wasHit w e = true
  · simp [h]
    omega
  · simp [h]

theorem hitCount_collision (w : AttackOld.Weapon) (mobs : List GameActors.Monster)
    (envs : List (List GameActors.Monster)) :
    AttackOld.hitCount (AttackOld.collision w mobs).1 envs = AttackOld.hitCount w envs := by
  induction envs with
  | nil => rfl
  | cons e rest ih => rw [hitCount_cons, hitCount_cons, wasHit_collision, ih]

theorem collision_miss (w : AttackOld.Weapon) (mobs : List GameActors.Monster)
    (h : AttackOld.wasHit w mobs = false) :
    AttackOld.collision w mobs = (w, mobs) := by
  unfold AttackOld.wasHit at h
  unfold AttackOld.collision
  cases hc : AttackOld.collidelist w mobs
  · rfl
  · rw [hc] at h
    simp at h

theorem collision_hit_pierce (w : AttackOld.Weapon) (mobs : List GameActors.Monster)
    (h : AttackOld.wasHit w mobs = true) :
    (AttackOld.collision w mobs).1
      = if w.pierce ≠ -1 then
          { w with pierce := w.pierce - 1,
                   exists_ := if w.pierce - 1 = 0 then false else w.exists_ }
        else w := by
  unfold AttackOld.wasHit at h
  unfold AttackOld.collision
  cases hc : AttackOld.collidelist w mobs
  · rw [hc] at h
    simp at h
  · dsimp only
    split <;> rfl

theorem runColl_cons (w : AttackOld.Weapon) (e : List GameActors.Monster)
    (rest : List (List GameActors.Monster)) :
    AttackOld.runColl w (e :: rest) = AttackOld.runColl (AttackOld.collision w e).1 rest := by
  simp [AttackOld.runColl]

theorem runColl_invariant (n : ℤ) (hn : 0 < n) :
    ∀ (envs : List (List GameActors.Monster)) (w : AttackOld.Weapon) (k : ℕ),
      w.pierce = max (n - (k : ℤ)) (-1) →
      w.exists_ = decide ((k : ℤ) < n) →
      (AttackOld.runColl w envs).pierce
          = max (n - ((k + AttackOld.hitCount w envs : ℕ) : ℤ)) (-1)
      ∧ (AttackOld.runColl w envs).exists_
          = decide (((k + AttackOld.hitCount w envs : ℕ) : ℤ) < n) := by
  intro envs
  induction envs with
  | nil =>
    intro w k hp he
    simpa [AttackOld.runColl, AttackOld.hitCount] using ⟨hp, he⟩
  | cons e rest ih =>
    intro w k hp he
    rw [runColl_cons, hitCount_cons]
    by_cases hh : AttackOld.wasHit w e = true
    · have hstep := collision_hit_pierce w e hh
      by_cases hinf : w.pierce = -1
      · have hw : (AttackOld.collision w e).1 = w := by
          rw [hstep, if_neg (by simp [hinf])]
        have hk1 : w.pierce = max (n - ((k + 1 : ℕ) : ℤ)) (-1) := by
          rw [hinf]
          rw [hinf] at hp
          push_cast
          push_cast at hp
          omega
        have hk2 : w.exists_ = decide (((k + 1 : ℕ) : ℤ) < n) := by
          rw [he]
          simp only [decide_eq_decide]
          rw [hinf] at hp
          push_cast
          push_cast at hp
          omega
        have hres := ih (AttackOld.collision w e).1 (k + 1)
          (by rw [hw]; exact hk1) (by rw [hw]; exact hk2)
        rw [hw] at hres
        rw [hw]
        refine ⟨?_, ?_⟩
        · rw [hres.1, hh]
          simp only [if_true]
          congr 2
          push_cast
          ring
        · rw [hres.2, hh]
          simp only [if_true, decide_eq_decide]
          constructor <;> (intro hlt; push_cast at hlt ⊢; omega)
      · have hw : (AttackOld.collision w e).1
            = { w with pierce := w.pierce - 1,
                       exists_ := if w.pierce - 1 = 0 then false else w.exists_ } := by
          rw [hstep, if_pos hinf]
        have hk1 : ((AttackOld.collision w e).1).pierce = max (n - ((k + 1 : ℕ) : ℤ)) (-1) := by
          rw [hw]
          simp only
          push_cast
          push_cast at hp
          omega
        have hk2 : ((AttackOld.collision w e).1).exists_ = decide (((k + 1 : ℕ) : ℤ) < n) := by
          rw [hw]
          simp only
          by_cases hz : w.pierce - 1 = 0
          · rw [if_pos hz]
            symm
            simp only [decide_eq_false_iff_not]
            push_cast at hp ⊢
            omega
          · rw [if_neg hz, he]
            simp only [decide_eq_decide]
            push_cast at hp ⊢
            omega
        have hres := ih (AttackOld.collision w e).1 (k + 1) hk1 hk2
        rw [hitCount_collision] at hres
        refine ⟨?_, ?_⟩
        · rw [hres.1, hh]
          simp only [if_true]
          congr 2
          push_cast
          ring
        · rw [hres.2, hh]
          simp only [if_true, decide_eq_decide]
          constructor <;> (intro hlt; push_cast at hlt ⊢; omega)
    · have hfalse : AttackOld.wasHit w e = false := by
        simpa using hh
      rw [collision_miss w e hfalse]
      have hres := ih w k hp he
      rw [hfalse]
      simpa using hres

theorem runColl_inf :
    ∀ (envs : List (List GameActors.Monster)) (w : AttackOld.Weapon),
      w.pierce = -1 → AttackOld.runColl w envs = w := by
  intro envs
  induction envs with
  | nil => intro w _; rfl
  | cons e rest ih =>
    intro w hp
    have hstep : (AttackOld.collision w e).1 = w := by
      unfold AttackOld.collision
      cases hc : AttackOld.collidelist w e
      · rfl
      · dsimp only
        rw [if_neg (by simp [hp])]
    rw [runColl_cons, hstep]
    exact ih w hp

/-- Claim C2 (amended): over any trace of collision calls, an Attack
constructed with pierce N greater than 0 has, after the trace, pierce
equal to N minus the number of hits clamped below at -1, and its exists
flag is false exactly once the hit count has reached N — where every
collision call that finds an overlapping monster counts as a hit,
including repeated hits on the same monster: this collision routine has
no distinctness or immunity filtering.  An Attack constructed with
pierce -1 never has pierce decremented and its exists flag is never
cleared by hits. -/
theorem c2_pierce_exact (w : AttackOld.Weapon) (envs : List (List GameActors.Monster))
    (hex : w.exists_ = true) :
    (0 < w.pierce →
      (AttackOld.runColl w envs).pierce
          = max (w.pierce - (AttackOld.hitCount w envs : ℤ)) (-1)
      ∧ (AttackOld.runColl w envs).exists_
          = decide ((AttackOld.hitCount w envs : ℤ) < w.pierce))
    ∧ (w.pierce = -1 →
      (AttackOld.runColl w envs).pierce = -1
      ∧ (AttackOld.runColl w envs).exists_ = true) := by
  constructor
  · intro hp
    have h0 := runColl_invariant w.pierce hp envs w 0
      (by push_cast; omega) (by rw [hex]; symm; simp [hp])
    simpa using h0
  · intro hp
    rw [runColl_inf envs w hp]
    exact ⟨hp, hex⟩

/-- Witness for claim C2: a pierce 2 attack over a two-hit trace, and a
pierce -1 attack over a one-hit trace. -/
theorem c2_witness :
    ((AttackOld.runColl cAtk [[bigMob], [bigMob]]).pierce
        = max (cAtk.pierce - (AttackOld.hitCount cAtk [[bigMob], [bigMob]] : ℤ)) (-1)
      ∧ (AttackOld.runColl cAtk [[bigMob], [bigMob]]).exists_
        = decide ((AttackOld.hitCount cAtk [[bigMob], [bigMob]] : ℤ) < cAtk.pierce))
    ∧ ((AttackOld.runColl cAtkInf [[bigMob]]).pierce = -1
      ∧ (AttackOld.runColl cAtkInf [[bigMob]]).exists_ = true) :=
  ⟨(c2_pierce_exact cAtk [[bigMob], [bigMob]] rfl).1 (by norm_num [cAtk]),
   (c2_pierce_exact cAtkInf [[bigMob]] rfl).2 rfl⟩

/-- Claim C2 counterexample: the claim counts only distinct monster
hits.  A pierce 2 attack moved two sub-steps against a mob list holding
a single monster hits that same monster twice and ends with exists
false, even though only one distinct monster was ever hit; under the
claim the attack should still exist. -/
theorem c2_counterexample :
    (AttackOld.move cAtk.dx cAtk.dy 2 cAtk [bigMob]).1.exists_ = false
    ∧ cAtk.pierce = 2
    ∧ List.length [bigMob] = 1 := by
  refine ⟨?_, rfl, rfl⟩
  norm_num [AttackOld.move, AttackOld.collision, AttackOld.collidelist,
    AttackOld.weaponRect, GameActors.monsterRect, GameActors.hurtMonster,
    rectsCollide, cAtk, bigMob, List.findIdx?, List.modify,
    HURT_DURATION]

theorem absorbSum_cons (sid : ℕ) (sx sy d : ℚ) (c : Collectables.Collectable)
    (pool : List Collectables.Collectable) :
    Collectables.absorbSum sid sx sy d (c :: pool)
      = (if Collectables.absorbP sid sx sy d c then c.value else 0)
        + Collectables.absorbSum sid sx sy d pool := by
  simp only [Collectables.absorbSum, List.filter_cons]
  by_cases h : Collectables.absorbP sid sx sy d c
  · simp [h]
  · simp [h]

theorem condense_char (d : ℚ) :
    ∀ (pool : List Collectables.Collectable) (self : Collectables.Collectable),
      (Collectables.condense d self pool).1.value
          = self.value + Collectables.absorbSum self.id self.x_pos self.y_pos d pool
      ∧ (Collectables.condense d self pool).2
          = pool.map (Collectables.absorbMark self.id self.x_pos self.y_pos d) := by
  intro pool
  induction pool with
  | nil =>
    intro self
    simp [Collectables.condense, Collectables.absorbSum]
  | cons c rest ih =>
    intro self
    simp only [Collectables.condense]
    by_cases h1 : c.kind = Collectables.Kind.xp ∧ c.exists_ = true ∧ c.id ≠ self.id
    · by_cases h2 : Collectables.withinDist c self.x_pos self.y_pos d
      · have habs : Collectables.absorbP self.id self.x_pos self.y_pos d c := ⟨h1, h2⟩
        rw [if_pos h1, if_pos h2]
        have hrec := ih { self with value := self.value + c.value,
                                    tier := Collectables.tierOf (self.value + c.value) }
        refine ⟨?_, ?_⟩
        · show (Collectables.condense d _ rest).1.value = _
          rw [hrec.1, absorbSum_cons, if_pos habs]
          push_cast
          ring
        · show _ :: (Collectables.condense d _ rest).2 = _
          rw [hrec.2, List.map_cons]
          congr 1
          unfold Collectables.absorbMark
          rw [if_pos habs]
      · have habs : ¬ Collectables.absorbP self.id self.x_pos self.y_pos d c :=
          fun hab => h2 hab.2
        rw [if_pos h1, if_neg h2]
        refine ⟨?_, ?_⟩
        · show (Collectables.condense d self rest).1.value = _
          rw [(ih self).1, absorbSum_cons, if_neg habs]
          ring
        · show c :: (Collectables.condense d self rest).2 = _
          rw [(ih self).2, List.map_cons]
          congr 1
          unfold Collectables.absorbMark
          rw [if_neg habs]
    · have habs : ¬ Collectables.absorbP self.id self.x_pos self.y_pos d c :=
        fun hab => h1 hab.1
      rw [if_neg h1]
      refine ⟨?_, ?_⟩
      · show (Collectables.condense d self rest).1.value = _
        rw [(ih self).1, absorbSum_cons, if_neg habs]
        ring
      · show c :: (Collectables.condense d self rest).2 = _
        rw [(ih self).2, List.map_cons]
        congr 1
        unfold Collectables.absorbMark
        rw [if_neg habs]

/-- Claim C8: condensing A (an xp item of value 5) over the pool [A, B]
where B is a distinct, still existing xp item of value 3 within
search_distance leaves A with value 8 and marks exactly the B entry non
existent; and in general a condense pass adds exactly the values of the
other existing xp entries within range (so an item is never merged into
itself, and an item whose exists flag is already false is never
absorbed), and rewrites the pool by clearing exactly the absorbed
entries. -/
theorem c8_condense (d : ℚ) (A B : Collectables.Collectable)
    (hBk : B.kind = Collectables.Kind.xp) (hAv : A.value = 5) (hBv : B.value = 3)
    (hBe : B.exists_ = true) (hid : B.id ≠ A.id)
    (hnear : Collectables.withinDist B A.x_pos A.y_pos d) :
    ((Collectables.condense d A [A, B]).1.value = 8
      ∧ (Collectables.condense d A [A, B]).2 = [A, { B with exists_ := false }])
    ∧ (∀ (self : Collectables.Collectable) (pool : List Collectables.Collectable),
        (Collectables.condense d self pool).1.value
            = self.value + Collectables.absorbSum self.id self.x_pos self.y_pos d pool
        ∧ (Collectables.condense d self pool).2
            = pool.map (Collectables.absorbMark self.id self.x_pos self.y_pos d)) := by
  have hgen := condense_char d
  have hAabs : ¬ Collectables.absorbP A.id A.x_pos A.y_pos d A :=
    fun hab => hab.1.2.2 rfl
  have hBabs : Collectables.absorbP A.id A.x_pos A.y_pos d B := ⟨⟨hBk, hBe, hid⟩, hnear⟩
  refine ⟨⟨?_, ?_⟩, fun self pool => hgen pool self⟩
  · rw [(hgen [A, B] A).1, absorbSum_cons, absorbSum_cons, if_neg hAabs, if_pos hBabs]
    simp [Collectables.absorbSum, hAv, hBv]
  · rw [(hgen [A, B] A).2]
    simp only [List.map_cons, List.map_nil]
    congr 1
    · unfold Collectables.absorbMark
      rw [if_neg hAabs]
    · congr 1
      unfold Collectables.absorbMark
      rw [if_pos hBabs]

/-- Witness for claim C8 at the concrete items cXP (value 5 at (10,10))
and cXPB (value 3 at (12,10)) with search distance 20. -/
theorem c8_witness :
    (Collectables.condense 20 cXP [cXP, cXPB]).1.value = 8
    ∧ (Collectables.condense 20 cXP [cXP, cXPB]).2 = [cXP, { cXPB with exists_ := false }] :=
  (c8_condense 20 cXP cXPB rfl rfl rfl rfl (by decide)
    (by norm_num [Collectables.withinDist, Collectables.dist2, cXP, cXPB])).1

/-- Witness for claim C7 at the concrete monster cMonster (speed 2,
overlapping cPlayer): the move advances both sub-steps and the entity
ends the move dead; the charger hook returns false there. -/
theorem c7_witness :
    (GameActors.monsterMove cMonster cPlayer 0).1.x_pos
        = cMonster.x_pos + (cMonster.speed.toNat : ℚ) * cMonster.dx
    ∧ (GameActors.chargerCollision cMonster cPlayer 0).1 = false
    ∧ (GameActors.monsterMove cMonster cPlayer 0).1.alive = false :=
  ⟨(c7_move_no_break.1 cMonster cPlayer 0).1,
   c7_move_no_break.2.1 cMonster cPlayer 0,
   c7_move_no_break.2.2.2 cMonster cPlayer 0 (by decide)
     (by norm_num [rectsCollide, GameActors.monsterRect, GameActors.playerRect,
       cMonster, cPlayer])⟩

/-- Claim C7 counterexample: the claim says that once the collision hook
returns true at a sub-step, no further position increments or collision
checks occur that tick.  For cMonster (speed 2, damage 3) overlapping
cPlayer (health 200) the hook returns true already at the first
sub-step, yet the move still performs both increments (x advances from
10 to 12) and both collision checks (the player is hurt twice, ending
at 194 rather than the 197 a stopped loop would leave). -/
theorem c7_counterexample :
    (GameActors.monsterMove cMonster cPlayer 0).2.health = 194
    ∧ (GameActors.monsterMove cMonster cPlayer 0).1.x_pos = 12
    ∧ (GameActors.monsterCollision cMonster cPlayer 0).1 = true
    ∧ (GameActors.monsterMove cMonster cPlayer 0).2.health
        ≠ cPlayer.health - cMonster.damage := by
  refine ⟨?_, ?_, ?_, ?_⟩ <;>
    norm_num [GameActors.monsterMove, GameActors.moveLoop, GameActors.monsterCollision,
      GameActors.hurt, GameActors.monsterRect, GameActors.playerRect, rectsCollide,
      cMonster, cPlayer, HURT_DURATION]
